import Mathlib

/-!
Shallow embedding of the Crawler-database transformation/ETL engine:
the rule-driven field normalizers (salary, experience, location, date),
the per-source processor's transform step, the duplicate-checking insert
operations into the normalized store, and the orchestrator's commit loop
and re-entrancy guard.  JavaScript numbers are modelled as either NaN or
an exact rational; JavaScript regular expressions (a runtime builtin) are
modelled by their compiled behaviour: a validity flag (compilation throws
when false) plus the exec function returning the match array.
-/

namespace Crawler

/-- A JavaScript number as produced by parseFloat and arithmetic on match
groups: either NaN or an exact rational value. -/
inductive JsNum where
  | nan : JsNum
  | num : ℚ → JsNum
deriving DecidableEq, Repr

/-- Multiplication of a JS number by a rational multiplier; NaN propagates. -/
def JsNum.mul : JsNum → ℚ → JsNum
  | .nan, _ => .nan
  | .num a, k => .num (a * k)

/-- The JS expression (min + max) / 2 on two JS numbers; NaN propagates. -/
def JsNum.avg : JsNum → JsNum → JsNum
  | .num a, .num b => .num ((a + b) / 2)
  | _, _ => .nan

/-- Numeric value of a decimal digit character. -/
def digitVal (c : Char) : Nat := c.toNat - 48

/-- Value of a list of decimal digit characters. -/
def digitsToNat (ds : List Char) : Nat :=
  ds.foldl (fun acc c => acc * 10 + digitVal c) 0

/-- The decomposition of a numeric string: sign, integer digits,
fraction digits. -/
structure FloatShape where
  neg : Bool
  ip : List Char
  fp : List Char
deriving DecidableEq, Repr

/-- The syntactic half of the JS builtin parseFloat, restricted to the
sign/decimal forms the salary configurations produce: an optional sign,
integer digits, and an optional fractional part; trailing non-numeric
characters are ignored, exactly as parseFloat ignores them; no leading
digits at all means NaN (none). -/
def jsParseFloatShape (s : String) : Option FloatShape :=
  let p : Bool × List Char :=
    match s.data with
    | '-' :: r => (true, r)
    | '+' :: r => (false, r)
    | r => (false, r)
  let ip := p.2.takeWhile Char.isDigit
  let rest := p.2.dropWhile Char.isDigit
  let fp : List Char :=
    match rest with
    | '.' :: r => r.takeWhile Char.isDigit
    | _ => []
  if ip.isEmpty ∧ fp.isEmpty then none
  else some ⟨p.1, ip, fp⟩

/-- The rational value of a decomposed numeric string. -/
def shapeVal (sh : FloatShape) : ℚ :=
  (if sh.neg then -1 else 1) *
    ((digitsToNat sh.ip : ℚ) + (digitsToNat sh.fp : ℚ) / (10 : ℚ) ^ sh.fp.length)

/-- Model of the JS builtin parseFloat: the decomposed string's value,
or NaN. -/
def jsParseFloat (s : String) : JsNum :=
  match jsParseFloatShape s with
  | none => .nan
  | some sh => .num (shapeVal sh)

/-- Model of the JS builtin parseInt (radix 10): leading whitespace is
skipped, then an optional sign and leading digits; no digits gives NaN
(modelled as none). -/
def jsParseInt (s : String) : Option Int :=
  let cs := s.data.dropWhile Char.isWhitespace
  let p : Int × List Char :=
    match cs with
    | '-' :: r => (-1, r)
    | '+' :: r => (1, r)
    | r => (1, r)
  let ds := p.2.takeWhile Char.isDigit
  if ds.isEmpty then none else some (p.1 * (digitsToNat ds : Int))

/-- parseInt applied to a possibly-undefined capture group; an undefined
group gives NaN. -/
def jsParseIntOpt : Option String → Option Int
  | none => none
  | some s => jsParseInt s

/-- Truthiness of a possibly-undefined JS string: undefined and the empty
string are falsy. -/
def jsTruthyStr : Option String → Bool
  | none => false
  | some s => s ≠ ""

/-- The JS idiom (x or-else d) on a possibly-undefined string, as in
the idiom config.method or-else manual: a falsy x yields the default. -/
def jsDefS (o : Option String) (d : String) : String :=
  match o with
  | some s => if s = "" then d else s
  | none => d

/-- The JS idiom (a or-else b) on two possibly-undefined strings. -/
def jsOrS (a b : Option String) : Option String :=
  if jsTruthyStr a then a else b

/-- The JS idiom (x or-else d) on a possibly-undefined rational, as in
pattern.multiplier or-else 1: undefined and 0 are falsy. -/
def jsOrQ (o : Option ℚ) (d : ℚ) : ℚ :=
  match o with
  | some q => if q = 0 then d else q
  | none => d

/-- The JS idiom (a or-else b) on possibly-undefined numeric ids; 0 is
falsy. -/
def jsOrNatOpt (a b : Option Nat) : Option Nat :=
  match a with
  | some n => if n = 0 then b else some n
  | none => b

/-- First value bound to the given key in an insertion-ordered JS object,
modelled as an association list. -/
def assocFind {α : Type} : List (String × α) → String → Option α
  | [], _ => none
  | (k, v) :: rest, key => if k = key then some v else assocFind rest key

/-- ASCII lower-casing of one character, as JS toLowerCase acts on the
ASCII range. -/
def charLower (c : Char) : Char :=
  if 65 ≤ c.toNat ∧ c.toNat ≤ 90 then Char.ofNat (c.toNat + 32) else c

/-- The JS expression s.toLowerCase() on the ASCII range. -/
def jsToLower (s : String) : String := ⟨s.data.map charLower⟩

/-- Does the character list l start with pre. -/
def listStartsWith : List Char → List Char → Bool
  | _, [] => true
  | [], _ :: _ => false
  | c :: cs, p :: ps => c = p && listStartsWith cs ps

/-- Does sub occur as a contiguous run inside l. -/
def hasSubList (l sub : List Char) : Bool :=
  match l with
  | [] => sub.isEmpty
  | c :: cs => listStartsWith (c :: cs) sub || hasSubList cs sub

/-- The JS expression s.includes(sub): substring containment; the empty
string is contained in every string, as in JS. -/
def jsIncludes (s sub : String) : Bool := hasSubList s.data sub.data

/-- A compiled JS regular expression, modelled by its behaviour: valid is
false when compilation (new RegExp) throws, and exec gives the match
array — element 0 the whole match, further elements the capture groups,
none for an unmatched optional group. -/
structure JsRegex where
  valid : Bool
  exec : String → Option (List (Option String))

/-- Element i of a JS match array; out of range gives undefined. -/
def mGet (m : List (Option String)) (i : Nat) : Option String :=
  (m.get? i).bind id

/-! Salary parser — src/data-processor/utils/salary_parser.js. -/

/-- A salary pattern descriptor from a source configuration: the compiled
regex, the type tag, the multiplier, a fixed currency or a currency
capture group, and the capture-group indices for the numeric bounds. -/
structure SalaryPattern where
  regex : JsRegex
  type : String
  multiplier : Option ℚ
  currency : Option String
  currency_group : Nat
  min_group : Nat
  max_group : Nat
  value_group : Nat

/-- The salary section of a source configuration. -/
structure SalaryConfig where
  patterns : List SalaryPattern
  default_currency : Option String
  method : Option String
  aiEnabled : Bool

/-- The parsed salary object: min, max and average are JS numbers or
null, plus the currency and the pattern's type tag. -/
structure SalaryResult where
  min : Option JsNum
  max : Option JsNum
  average : Option JsNum
  currency : Option String
  type : String
deriving DecidableEq, Repr

/-- SalaryParser.cleanNumber: a falsy argument (undefined group or empty
string) gives 0; otherwise commas and whitespace are removed and the JS
parseFloat is applied — a string with no leading number gives NaN. -/
def cleanNumber : Option String → JsNum
  | none => .num 0
  | some s =>
    if s = "" then .num 0
    else jsParseFloat ⟨s.data.filter (fun c => ¬(c = ',' ∨ c.isWhitespace))⟩

/-- SalaryParser.extractSalaryFromMatch: dispatch on the pattern's type
tag; each numeric group is cleaned and multiplied by the effective
multiplier (pattern multiplier, or-else 1); an unknown type tag gives
null. -/
def extractSalaryFromMatch (m : List (Option String)) (p : SalaryPattern)
    (cfg : SalaryConfig) : Option SalaryResult :=
  let multiplier := jsOrQ p.multiplier 1
  let currency := jsOrS p.currency (jsOrS (mGet m p.currency_group) cfg.default_currency)
  if p.type = "range" then
    let mn := (cleanNumber (mGet m p.min_group)).mul multiplier
    let mx := (cleanNumber (mGet m p.max_group)).mul multiplier
    some ⟨some mn, some mx, some (mn.avg mx), currency, "range"⟩
  else if p.type = "min" then
    let v := (cleanNumber (mGet m p.value_group)).mul multiplier
    some ⟨some v, none, some v, currency, "min"⟩
  else if p.type = "max" then
    let v := (cleanNumber (mGet m p.value_group)).mul multiplier
    some ⟨none, some v, some v, currency, "max"⟩
  else if p.type = "exact" then
    let v := (cleanNumber (mGet m p.value_group)).mul multiplier
    some ⟨some v, some v, some v, currency, "exact"⟩
  else if p.type = "negotiable" then
    some ⟨none, none, none, cfg.default_currency, "negotiable"⟩
  else none

/-- The pattern loop of SalaryParser.parseManual: a pattern whose regex
fails to compile is skipped (the catch logs and continues); the first
pattern whose regex matches ends the loop, returning its extraction
result — whatever that result is. -/
def salaryPatternLoop (text : String) (cfg : SalaryConfig) :
    List SalaryPattern → Option SalaryResult
  | [] => none
  | p :: ps =>
    if p.regex.valid then
      match p.regex.exec text with
      | some m => extractSalaryFromMatch m p cfg
      | none => salaryPatternLoop text cfg ps
    else salaryPatternLoop text cfg ps

/-- SalaryParser.parseManual. -/
def salaryParseManual (text : String) (cfg : SalaryConfig) : Option SalaryResult :=
  salaryPatternLoop text cfg cfg.patterns

/-- The value of SalaryParser.parseSalary as observed by the caller:
null, a parsed result, or — because transformJob does not await the
parser and the AI path returns a promise — a pending promise object. -/
inductive SalaryOutcome where
  | null : SalaryOutcome
  | res : SalaryResult → SalaryOutcome
  | promise : SalaryOutcome
deriving DecidableEq, Repr

/-- SalaryParser.parseSalary: falsy text gives null; manual patterns are
tried when the method is manual or ai; the AI fallback (which the caller
receives as an un-awaited promise) is entered only when the method is ai
and the fallback is enabled. -/
def parseSalaryJs (text? : Option String) (cfg : SalaryConfig) : SalaryOutcome :=
  match text? with
  | none => .null
  | some t =>
    if t = "" then .null
    else
      let method := jsDefS cfg.method "manual"
      let manual := if method = "manual" ∨ method = "ai" then salaryParseManual t cfg else none
      match manual with
      | some r => .res r
      | none => if cfg.aiEnabled ∧ method = "ai" then .promise else .null

/-! Experience mapper — src/data-processor/utils/experience_mapper.js. -/

/-- The experience_level section of a source configuration: the mapping
table (insertion-ordered), the default level, the method, and whether the
AI fallback is enabled. -/
structure ExpConfig where
  mappings : List (String × String)
  default : Option String
  method : Option String
  aiEnabled : Bool

/-- The fixed reference map from canonical level names to numeric ids. -/
def referenceMap : List (String × Nat) :=
  [("Internship", 1), ("Entry", 2), ("Mid", 3), ("Senior", 4), ("Lead", 5), ("Executive", 6)]

/-- The case-insensitive bidirectional substring loop of
ExperienceMapper.mapManual: the first table entry (in declaration order)
whose key contains the lowered text or is contained in it wins. -/
def expSubLoop (lowerText : String) : List (String × String) → Option String
  | [] => none
  | (k, v) :: rest =>
    if jsIncludes lowerText (jsToLower k) || jsIncludes (jsToLower k) lowerText then some v
    else expSubLoop lowerText rest

/-- ExperienceMapper.mapManual: direct (truthy) table lookup first, then
the case-insensitive bidirectional substring loop, else null. -/
def expMapManual (text : String) (ec : ExpConfig) : Option String :=
  match assocFind ec.mappings text with
  | some v => if v = "" then expSubLoop (jsToLower text) ec.mappings else some v
  | none => expSubLoop (jsToLower text) ec.mappings

/-- ExperienceMapper.mapWithAI: the AI adapter's answer (none models a
thrown or failed call) is accepted only when it is one of the six
canonical levels of the reference map. -/
def expMapWithAI (ai : String → Option String) (text : String) : Option String :=
  match ai text with
  | some r => if (assocFind referenceMap r).isSome then some r else none
  | none => none

/-- The configured default level, falling back to Entry. -/
def expDefault (ec : ExpConfig) : String := jsDefS ec.default "Entry"

/-- The tail of ExperienceMapper.mapExperience after the manual mapping
came back falsy: the AI fallback when enabled and truthy, else the
default. -/
def expAfterManual (ai : String → Option String) (text : String) (ec : ExpConfig) : String :=
  if ec.aiEnabled then
    match expMapWithAI ai text with
    | some r => if r = "" then expDefault ec else r
    | none => expDefault ec
  else expDefault ec

/-- ExperienceMapper.mapExperience: falsy text gives the default; manual
mapping is tried when the method is manual or ai; a falsy manual result
falls through to the AI fallback and then to the default. Never null: the
result type is String. -/
def mapExperience (ai : String → Option String) (text? : Option String) (ec : ExpConfig) : String :=
  match text? with
  | none => expDefault ec
  | some t =>
    if t = "" then expDefault ec
    else
      let method := jsDefS ec.method "manual"
      let manual := if method = "manual" ∨ method = "ai" then expMapManual t ec else none
      match manual with
      | some v => if v = "" then expAfterManual ai t ec else v
      | none => expAfterManual ai t ec

/-- ExperienceMapper.getExperienceLevelId: reference-map lookup, with the
JS or-else idiom defaulting unknown names to 2 (Entry). -/
def getExperienceLevelId (name : String) : Nat :=
  match assocFind referenceMap name with
  | some i => if i = 0 then 2 else i
  | none => 2

/-! Location normalizer — src/data-processor/utils/location_normalizer.js. -/

/-- A country-detection pattern: compiled regex plus country code. -/
structure CountryPattern where
  regex : JsRegex
  code : String

/-- The location section of a source configuration. -/
structure LocConfig where
  city_mappings : List (String × String)
  country_patterns : List CountryPattern
  remote_keywords : List String
  hybrid_keywords : List String
  default_country : Option String
  method : Option String
  aiEnabled : Bool

/-- The normalized location object. -/
structure LocResult where
  city : Option String
  country : String
  isRemote : Bool
  isHybrid : Option Bool
deriving DecidableEq, Repr

/-- The city-mapping loop: the first key (in table order) contained
case-sensitively in the text replaces the city; unmapped text passes
through unchanged. -/
def cityMap (t : String) : List (String × String) → String
  | [] => t
  | (k, v) :: rest => if jsIncludes t k then v else cityMap t rest

/-- The country-detection loop of LocationNormalizer.normalizeManual.
Unlike the salary and date parsers, the regex construction here is NOT
wrapped in a try/catch: a pattern that fails to compile throws out of the
normalizer (modelled as error). The first matching pattern's code wins,
else the start value (the configured default) stands. -/
def locFindCountry (t : String) (dflt : String) :
    List CountryPattern → Except Unit String
  | [] => .ok dflt
  | p :: ps =>
    if p.regex.valid then
      match p.regex.exec t with
      | some _ => .ok p.code
      | none => locFindCountry t dflt ps
    else .error ()

/-- LocationNormalizer.normalizeManual: remote/hybrid keyword detection
(case-insensitive substring), city mapping, country detection; a remote
match forces the city to the literal Remote. Throws (error) only from an
invalid country pattern. -/
def locNormalizeManual (t : String) (lc : LocConfig) : Except Unit LocResult :=
  let isRemote := lc.remote_keywords.any (fun kw => jsIncludes (jsToLower t) (jsToLower kw))
  let isHybrid := lc.hybrid_keywords.any (fun kw => jsIncludes (jsToLower t) (jsToLower kw))
  let city := cityMap t lc.city_mappings
  match locFindCountry t (jsDefS lc.default_country "VNM") lc.country_patterns with
  | .error e => .error e
  | .ok countryCode =>
    .ok ⟨some (if isRemote then "Remote" else city), countryCode, isRemote, some isHybrid⟩

/-- The value of LocationNormalizer.normalizeLocation as observed by the
caller: a result object, or — because the AI path's promise is not
awaited by transformJob — a pending promise object. -/
inductive LocOutcome where
  | res : LocResult → LocOutcome
  | promise : LocOutcome
deriving DecidableEq, Repr

/-- LocationNormalizer.normalizeLocation: falsy text gives a null city
with the default country; the manual path runs when the method is manual
or ai (its object result is always truthy, so the AI fallback is dead on
those methods); otherwise the AI promise or the pass-through default. -/
def normalizeLocation (text? : Option String) (lc : LocConfig) : Except Unit LocOutcome :=
  match text? with
  | none => .ok (.res ⟨none, jsDefS lc.default_country "VNM", false, none⟩)
  | some t =>
    if t = "" then .ok (.res ⟨none, jsDefS lc.default_country "VNM", false, none⟩)
    else
      let method := jsDefS lc.method "manual"
      if method = "manual" ∨ method = "ai" then
        match locNormalizeManual t lc with
        | .error e => .error e
        | .ok r => .ok (.res r)
      else if lc.aiEnabled then .ok .promise
      else .ok (.res ⟨some t, jsDefS lc.default_country "VNM", false, none⟩)

/-! Date parser — src/data-processor/utils/date_parser.js. -/

/-- A relative-date pattern: compiled regex plus unit name. -/
structure RelPattern where
  regex : JsRegex
  unit : String

/-- The date section of a source configuration. -/
structure DateConfig where
  relative : List RelPattern
  formats : List String
  method : Option String
  aiEnabled : Bool

/-- The runtime environment of a processing run: the current processing
date, the JS Date builtins (generic date construction, and subtraction of
a magnitude of a unit from the current date), the URL parser, and the AI
adapter's answers for the experience and description prompts (none models
a failed, disabled or invalid call). -/
structure JsEnv where
  today : String
  dateParse : String → Option String
  relDate : String → Int → String
  urlHostname : String → Option String
  expAi : String → Option String
  descAi : String → Option String

/-- DateParser.calculateRelativeDate: parseInt on the captured magnitude;
an unknown unit returns null before the date is touched; a NaN magnitude
makes toISOString throw on the invalid date (modelled as error); otherwise
the unit and magnitude are subtracted from the current date. -/
def calculateRelativeDate (env : JsEnv) (value : Option String) (unit : String) :
    Except Unit (Option String) :=
  let amount := jsParseIntOpt value
  if unit = "days" ∨ unit = "weeks" ∨ unit = "months" then
    match amount with
    | none => .error ()
    | some n => .ok (some (env.relDate unit n))
  else .ok none

/-- The relative-pattern loop of DateParser.parseManual: an invalid regex
or a thrown relative-date computation is caught and the loop continues;
when a pattern matches and the computation returns, that value — even
null, for an unknown unit — is returned from parseManual at once (and
some r here means the loop returned r). -/
def dateRelLoop (env : JsEnv) (text : String) : List RelPattern → Option (Option String)
  | [] => none
  | p :: ps =>
    if p.regex.valid then
      match p.regex.exec text with
      | some m =>
        match calculateRelativeDate env (mGet m 1) p.unit with
        | .error _ => dateRelLoop env text ps
        | .ok r => some r
      | none => dateRelLoop env text ps
    else dateRelLoop env text ps

/-- The absolute-format loop: tryParseFormat ignores the format string
and attempts the generic JS Date construction on the text, so each entry
makes the same attempt; success iff the constructed date is valid. -/
def dateFmtLoop (env : JsEnv) (text : String) : List String → Option String
  | [] => none
  | _ :: fs =>
    match env.dateParse text with
    | some d => some d
    | none => dateFmtLoop env text fs

/-- DateParser.parseManual: relative patterns first, then absolute
formats. -/
def dateParseManual (env : JsEnv) (text : String) (dc : DateConfig) : Option String :=
  match dateRelLoop env text dc.relative with
  | some r => r
  | none => dateFmtLoop env text dc.formats

/-- The value of DateParser.parseDate as observed by the caller: null, a
date string, or — because transformJob does not await the parser and the
AI path returns a promise — a pending promise object. -/
inductive DateOutcome where
  | null : DateOutcome
  | date : String → DateOutcome
  | promise : DateOutcome
deriving DecidableEq, Repr

/-- DateParser.parseDate: falsy text gives null; the manual path runs
when the method is manual or ai; a falsy manual result falls through to
the AI fallback when enabled, else null. -/
def dateParseDate (env : JsEnv) (text? : Option String) (dc : DateConfig) : DateOutcome :=
  match text? with
  | none => .null
  | some t =>
    if t = "" then .null
    else
      let method := jsDefS dc.method "manual"
      let manual := if method = "manual" ∨ method = "ai" then dateParseManual env t dc else none
      match manual with
      | some d =>
        if d = "" then (if dc.aiEnabled then .promise else .null) else .date d
      | none => if dc.aiEnabled then .promise else .null

/-! Description cleanup and the per-source transform —
src/unnamed/part_005 (BaseProcessor). -/

/-- The description section of a source configuration. -/
structure DescConfig where
  method : Option String
  aiEnabled : Bool

/-- One step of the tag-stripping replace: everything from an opening
angle bracket to the next closing one; none when no closing bracket
follows (the regex does not match an unclosed bracket). -/
def dropToGt : List Char → Option (List Char)
  | [] => none
  | c :: r => if c = '>' then some r else dropToGt r

/-- The tag-stripping replace of simpleCleanHtml, fuelled by the input
length (each step consumes at least one character, so the fuel is never
exhausted on the initial call). Every matched tag becomes one space. -/
def stripTagsAux : Nat → List Char → List Char
  | 0, cs => cs
  | _ + 1, [] => []
  | fuel + 1, c :: cs =>
    if c = '<' then
      match dropToGt cs with
      | some rest => ' ' :: stripTagsAux fuel rest
      | none => c :: cs
    else c :: stripTagsAux fuel cs

/-- Collapse every whitespace run to a single space, as the second
replace of simpleCleanHtml does. -/
def collapseWsGo : Bool → List Char → List Char
  | _, [] => []
  | prevWs, c :: cs =>
    if c.isWhitespace then
      (if prevWs then collapseWsGo true cs else ' ' :: collapseWsGo true cs)
    else c :: collapseWsGo false cs

/-- BaseProcessor.simpleCleanHtml: strip HTML tags, collapse whitespace,
trim, and cap at 10000 characters; falsy input gives null. -/
def simpleCleanHtml : Option String → Option String
  | none => none
  | some h =>
    if h = "" then none
    else
      let stripped := stripTagsAux h.data.length h.data
      let collapsed : String := ⟨collapseWsGo false stripped⟩
      some ⟨collapsed.trim.data.take 10000⟩

/-- BaseProcessor.processDescription: falsy text gives null; with the ai
method enabled, an accepted AI answer (an object with a cleaned
description, or a plain string) is returned, and any failure or
unusable answer falls back to the manual HTML cleanup. -/
def processDescription (env : JsEnv) (dc : DescConfig) (text? : Option String) : Option String :=
  match text? with
  | none => none
  | some t =>
    if t = "" then none
    else if dc.method = some "ai" ∧ dc.aiEnabled then
      match env.descAi t with
      | some cleaned => some cleaned
      | none => simpleCleanHtml (some t)
    else simpleCleanHtml (some t)

/-- A per-source configuration document, as loaded from its yaml file. -/
structure PlatformConfig where
  salary : SalaryConfig
  experience_level : ExpConfig
  location : LocConfig
  date : DateConfig
  description : DescConfig
  platform_id : Option Nat

/-- The reference tables of the global configuration. -/
structure RefTables where
  currencies : List (String × Nat)
  platforms : List (String × Nat)

/-- The global configuration document. -/
structure GlobalConfig where
  reference_tables : RefTables

/-- A raw job row as fetched from the raw store (job_posting joined with
its company), with the free-text fields the transform reads. -/
structure RawJob where
  job_id : Nat
  job_title : Option String
  description : Option String
  salary : Option String
  experience_level : Option String
  location : Option String
  listed_time : Option String
  applies : Option String
  url : Option String
  crawled_time : Option String
  company_name : Option String
  company_location : Option String
  company_url : Option String
deriving DecidableEq, Repr

/-- The posted date slot of a candidate record: a date string, or the
un-awaited promise object that the date parser's AI path leaks into the
record. -/
inductive PostedDate where
  | date : String → PostedDate
  | promiseObj : PostedDate
deriving DecidableEq, Repr

/-- The company sub-object of a candidate record. -/
structure CleanCompany where
  name : Option String
  location : Option String
  domain : Option String
deriving DecidableEq, Repr

/-- A candidate normalized record as built by BaseProcessor.transformJob. -/
structure CleanJob where
  company : CleanCompany
  title : Option String
  description : Option String
  salaryPerMonth : Option JsNum
  currencyId : Option Nat
  experienceLevelId : Nat
  location : Option String
  countryCode : Option String
  applicantCount : Option JsNum
  postedDate : PostedDate
  platformId : Option Nat
  postUrl : Option String
  crawledTime : Option String
  rawJobId : Nat
deriving DecidableEq, Repr

/-- The currency carried by the salary outcome (undefined for null or a
pending promise). -/
def salaryOutCurrency : SalaryOutcome → Option String
  | .res r => r.currency
  | _ => none

/-- The JS expression salaryInfo averaged or-else null of transformJob:
a falsy average — absent salary info, a pending promise, null, NaN, or
0 — is coerced to null. -/
def salaryOutAverageOrNull : SalaryOutcome → Option JsNum
  | .res r =>
    match r.average with
    | some (.num q) => if q = 0 then none else some (.num q)
    | some .nan => none
    | none => none
  | _ => none

/-- The city read off the location outcome (undefined on a pending
promise). -/
def locOutCity : LocOutcome → Option String
  | .res r => r.city
  | .promise => none

/-- The country read off the location outcome. -/
def locOutCountry : LocOutcome → Option String
  | .res r => some r.country
  | .promise => none

/-- The applicant count: a falsy applies field gives null, otherwise
parseInt (NaN when unparseable). -/
def appliesCount : Option String → Option JsNum
  | none => none
  | some s =>
    if s = "" then none
    else
      match jsParseInt s with
      | some n => some (.num n)
      | none => some .nan

/-- BaseProcessor.getCurrencyId: reference-table lookup of the salary
currency, or-else the VND entry. -/
def getCurrencyIdJs (cur? : Option String) (g : GlobalConfig) : Option Nat :=
  let cm := g.reference_tables.currencies
  jsOrNatOpt (cur?.bind (assocFind cm)) (assocFind cm "VND")

/-- BaseProcessor.extractDomain: hostname of the company URL, null when
the URL constructor throws. -/
def extractDomain (env : JsEnv) : Option String → Option String
  | none => none
  | some u => env.urlHostname u

/-- The record constructed by BaseProcessor.transformJob once every field
has been computed. -/
def buildCleanJob (env : JsEnv) (g : GlobalConfig) (platformName : String)
    (cfg : PlatformConfig) (raw : RawJob) (locationInfo : LocOutcome) : CleanJob :=
  let salaryInfo := parseSalaryJs raw.salary cfg.salary
  let experienceLevel := mapExperience env.expAi raw.experience_level cfg.experience_level
  let postedDate : PostedDate :=
    match dateParseDate env raw.listed_time cfg.date with
    | .date s => .date s
    | .null => .date env.today
    | .promise => .promiseObj
  { company := { name := raw.company_name, location := raw.company_location,
                 domain := extractDomain env raw.company_url },
    title := raw.job_title,
    description := processDescription env cfg.description raw.description,
    salaryPerMonth := salaryOutAverageOrNull salaryInfo,
    currencyId := getCurrencyIdJs (salaryOutCurrency salaryInfo) g,
    experienceLevelId := getExperienceLevelId experienceLevel,
    location := locOutCity locationInfo,
    countryCode := locOutCountry locationInfo,
    applicantCount := appliesCount raw.applies,
    postedDate := postedDate,
    platformId := jsOrNatOpt (assocFind g.reference_tables.platforms platformName) cfg.platform_id,
    postUrl := raw.url,
    crawledTime := raw.crawled_time,
    rawJobId := raw.job_id }

/-- BaseProcessor.transformJob: runs the four normalizers plus the
description cleanup and assembles the candidate record; the only uncaught
exception among them — an invalid country-pattern regex thrown inside the
location normalizer — propagates and aborts the whole record. -/
def transformJob (env : JsEnv) (g : GlobalConfig) (platformName : String)
    (cfg : PlatformConfig) (raw : RawJob) : Except Unit CleanJob :=
  match normalizeLocation raw.location cfg.location with
  | .error e => .error e
  | .ok locationInfo => .ok (buildCleanJob env g platformName cfg raw locationInfo)

/-! The normalized (clean) store and its duplicate-checking insert
operations — src/unnamed/part_003 (createJobPost and the find helpers)
and src/unnamed/part_004 (DatabaseService.insertJobPost and
upsertCompany). The store is the JobPost table in insertion order; ids
are drawn from a counter. Executions are sequential, so the unique
constraint race (error code 23505) branches are unreachable and not
modelled. -/

/-- The columns of a JobPost row supplied by the insert statements. -/
structure JobData where
  companyId : Nat
  title : String
  description : Option String
  salaryPerMonth : Option JsNum
  currencyId : Option Nat
  experienceLevelId : Option Nat
  location : Option String
  countryCode : Option String
  applicantCount : Option JsNum
  postedDate : PostedDate
  platformId : Nat
  postUrl : String
  crawledTime : Option String
deriving DecidableEq, Repr

/-- A stored JobPost row. -/
structure JobRow where
  id : Nat
  data : JobData
deriving DecidableEq, Repr

/-- The JobPost table with its id counter. -/
structure CleanStore where
  rows : List JobRow
  nextId : Nat
deriving DecidableEq, Repr

/-- The SQL expression LOWER(TRIM(x)): surrounding whitespace removed,
then lower-cased. -/
def lowerTrim (s : String) : String :=
  jsToLower ⟨((s.data.dropWhile Char.isWhitespace).reverse.dropWhile Char.isWhitespace).reverse⟩

/-- findJobByUrl: the first row with the given canonical URL. -/
def findJobByUrl (rows : List JobRow) (url : String) : Option Nat :=
  (rows.find? (fun r => r.data.postUrl == url)).map (fun r => r.id)

/-- findJobByCompanyTitlePlatform: the first row with the given company
id, case-insensitive trimmed title, and platform id. -/
def findJobByCompanyTitlePlatform (rows : List JobRow) (c : Nat) (t : String) (p : Nat) :
    Option Nat :=
  (rows.find? (fun r =>
    r.data.companyId == c && lowerTrim r.data.title == lowerTrim t && r.data.platformId == p)).map
    (fun r => r.id)

/-- createJobPost (src/unnamed/part_003): duplicate check by URL first,
then by (company, title, platform); either match is a no-op skip
returning the existing id with created = false; otherwise the row is
inserted. -/
def createJobPost (cs : CleanStore) (jd : JobData) : CleanStore × Bool × Nat :=
  match findJobByUrl cs.rows jd.postUrl with
  | some i => (cs, false, i)
  | none =>
    match findJobByCompanyTitlePlatform cs.rows jd.companyId jd.title jd.platformId with
    | some i => (cs, false, i)
    | none => (⟨cs.rows ++ [⟨cs.nextId, jd⟩], cs.nextId + 1⟩, true, cs.nextId)

/-- DatabaseService.insertJobPost (src/unnamed/part_004): a plain INSERT
with ON CONFLICT (PostUrl) DO NOTHING RETURNING Id — on a URL conflict
nothing is inserted and NO id is returned (rows are empty, so the
optional chain yields undefined); there is no (company, title, platform)
check at all. -/
def insertJobPost (cs : CleanStore) (jd : JobData) : CleanStore × Option Nat :=
  if cs.rows.any (fun r => r.data.postUrl == jd.postUrl) then (cs, none)
  else (⟨cs.rows ++ [⟨cs.nextId, jd⟩], cs.nextId + 1⟩, some cs.nextId)

/-- A stored Company row. -/
structure CompanyRow where
  id : Nat
  name : String
  domain : Option String
  location : Option String
deriving DecidableEq, Repr

/-- The Company table with its id counter. -/
structure CompanyStore where
  rows : List CompanyRow
  nextId : Nat
deriving DecidableEq, Repr

/-- DatabaseService.upsertCompany (src/unnamed/part_004): INSERT ON
CONFLICT (Name, Domain) DO UPDATE SET Location RETURNING Id. A null name
violates the NOT NULL constraint and throws (error). SQL uniqueness
treats nulls as distinct, so a null domain never conflicts and always
inserts a fresh row. -/
def upsertCompany (os : CompanyStore) (c : CleanCompany) : Except Unit (CompanyStore × Nat) :=
  match c.name with
  | none => .error ()
  | some nm =>
    match os.rows.find? (fun r => r.name == nm && r.domain == c.domain && c.domain.isSome) with
    | some r =>
      .ok (⟨os.rows.map (fun x => if x.id == r.id then ⟨x.id, x.name, x.domain, c.location⟩ else x),
            os.nextId⟩, r.id)
    | none => .ok (⟨os.rows ++ [⟨os.nextId, nm, c.domain, c.location⟩], os.nextId + 1⟩, os.nextId)

/-! The raw store's processed flag and the orchestrator's commit loop —
src/data-processor/index.js (processAllPlatforms) and
DatabaseService.markJobsProcessed. -/

/-- A raw job_posting row reduced to its id and processed flag. -/
structure RawRow where
  id : Nat
  processed : Bool
deriving DecidableEq, Repr

/-- DatabaseService.markJobsProcessed: one batched UPDATE setting
processed = TRUE for every row whose id is in the list. -/
def markJobsProcessed (ids : List Nat) (rs : List RawRow) : List RawRow :=
  rs.map (fun r => if r.id ∈ ids then ⟨r.id, true⟩ else r)

/-- The values object passed by processAllPlatforms to insertJobPost: the
insert throws on a NOT NULL violation (title, URL or platform id absent),
which the per-job catch swallows — modelled as none. -/
def toJobData (companyId : Nat) (j : CleanJob) : Option JobData :=
  match j.title, j.postUrl, j.platformId with
  | some t, some u, some p =>
    some ⟨companyId, t, j.description, j.salaryPerMonth, j.currencyId,
          some j.experienceLevelId, j.location, j.countryCode, j.applicantCount,
          j.postedDate, p, u, j.crawledTime⟩
  | _, _, _ => none

/-- One iteration of the commit loop of processAllPlatforms: upsert the
company, insert the job post, and push the raw job id onto
processedJobIds ONLY when the insert returned an id; any thrown error
(a failed upsert or a NOT NULL violation on insert) is caught and leaves
the accumulators unchanged. -/
def commitStep (cs : CleanStore) (os : CompanyStore) (acc : List Nat) (job : CleanJob) :
    CleanStore × CompanyStore × List Nat :=
  match upsertCompany os job.company with
  | .error _ => (cs, os, acc)
  | .ok (os', companyId) =>
    match toJobData companyId job with
    | none => (cs, os', acc)
    | some jd =>
      match insertJobPost cs jd with
      | (cs', some _) => (cs', os', acc ++ [job.rawJobId])
      | (cs', none) => (cs', os', acc)

/-- The per-job commit loop of processAllPlatforms. -/
def commitLoop (cs : CleanStore) (os : CompanyStore) (acc : List Nat) :
    List CleanJob → CleanStore × CompanyStore × List Nat
  | [] => (cs, os, acc)
  | job :: rest =>
    match commitStep cs os acc job with
    | (cs', os', acc') => commitLoop cs' os' acc' rest

/-- The outcome of one platform's commit step within a cycle. -/
structure CycleOut where
  raw : List RawRow
  clean : CleanStore
  companies : CompanyStore
  markedIds : List Nat
deriving DecidableEq, Repr

/-- The commit step of processAllPlatforms for one platform: run the
commit loop over the transformed jobs, then mark exactly the accumulated
processedJobIds as processed in the raw store (skipped when the list is
empty). -/
def runPlatformCommit (rs : List RawRow) (cs : CleanStore) (os : CompanyStore)
    (jobs : List CleanJob) : CycleOut :=
  match commitLoop cs os [] jobs with
  | (cs', os', ids) =>
    ⟨if ids.isEmpty then rs else markJobsProcessed ids rs, cs', os', ids⟩

/-! The orchestrator's re-entrancy guard — src/data-processor/index.js
(the isProcessing flag in processAllPlatforms and the cron callback in
start). The started/finished counters are ghost instrumentation counting
cycle starts and completions. -/

/-- The orchestrator state: the mutual-exclusion flag plus ghost counters
of started and finished cycles. -/
structure AppState where
  isProcessing : Bool
  started : Nat
  finished : Nat
deriving DecidableEq, Repr

/-- The two events the guard reacts to: a cycle request (cron tick or
manual trigger) and the completion of the running cycle. -/
inductive OrchEvent where
  | request : OrchEvent
  | finish : OrchEvent
deriving DecidableEq, Repr

/-- One step of the orchestrator guard: a request while isProcessing is
a dropped no-op (logged, not queued); a request while idle sets the flag
and starts a cycle; completion of the running cycle clears the flag. -/
def orchStep (s : AppState) : OrchEvent → AppState
  | .request => if s.isProcessing then s else ⟨true, s.started + 1, s.finished⟩
  | .finish => if s.isProcessing then ⟨false, s.started, s.finished + 1⟩ else s

/-- Run the guard over a sequence of events. -/
def orchRun (s : AppState) : List OrchEvent → AppState
  | [] => s
  | e :: es => orchRun (orchStep s e) es

/-- The initial orchestrator state. -/
def orchInit : AppState := ⟨false, 0, 0⟩

/-- At most one cycle is ever in flight: the number of started cycles
exceeds the finished ones exactly by the flag. -/
def orchInv (s : AppState) : Prop :=
  s.started = s.finished + (if s.isProcessing then 1 else 0)

/-! Concrete fixtures used by the closed theorems: configurations and
records mirroring the shapes the yaml configuration files declare. -/

/-- Split a string into its maximal runs of decimal digits
(accumulator-based). -/
def digitRunsGo (cur : List Char) : List Char → List (List Char)
  | [] => if cur.isEmpty then [] else [cur.reverse]
  | c :: cs =>
    if c.isDigit then digitRunsGo (c :: cur) cs
    else if cur.isEmpty then digitRunsGo [] cs
    else cur.reverse :: digitRunsGo [] cs

/-- The maximal digit runs of a string. -/
def digitRuns (s : String) : List String :=
  (digitRunsGo [] s.data).map (fun cs => ⟨cs⟩)

/-- The compiled behaviour of a configured range regex with two numeric
capture groups (as in a pattern for texts of the shape
15 Mil - 25 Mil VND): it matches exactly when the text holds two numeric
runs, capturing them as groups 1 and 2. -/
def rangeExec (s : String) : Option (List (Option String)) :=
  match digitRuns s with
  | [a, b] => some [some s, some a, some b]
  | _ => none

/-- A range-type salary pattern with multiplier 1,000,000 and currency
VND. -/
def c3pattern : SalaryPattern :=
  { regex := ⟨true, rangeExec⟩, type := "range", multiplier := some 1000000,
    currency := some "VND", currency_group := 3, min_group := 1, max_group := 2,
    value_group := 0 }

/-- A salary configuration holding only the range pattern. -/
def c3cfg : SalaryConfig :=
  { patterns := [c3pattern], default_currency := some "VND",
    method := some "manual", aiEnabled := false }

/-- The compiled behaviour of an exact-type pattern whose numeric group
captures the non-numeric text abc on the fixture text. -/
def c4exec1 (s : String) : Option (List (Option String)) :=
  if s = "salary abc" then some [some s, some "abc"] else none

/-- The compiled behaviour of a second exact-type pattern capturing the
numeric text 5 on the same fixture text. -/
def c4exec2 (s : String) : Option (List (Option String)) :=
  if s = "salary abc" then some [some s, some "5"] else none

/-- First fixture pattern: matches, but its numeric group fails to parse. -/
def c4p1 : SalaryPattern :=
  { regex := ⟨true, c4exec1⟩, type := "exact", multiplier := none,
    currency := some "USD", currency_group := 0, min_group := 0, max_group := 0,
    value_group := 1 }

/-- Second fixture pattern: also matches, with a numeric group that
parses. -/
def c4p2 : SalaryPattern :=
  { regex := ⟨true, c4exec2⟩, type := "exact", multiplier := none,
    currency := some "USD", currency_group := 0, min_group := 0, max_group := 0,
    value_group := 1 }

/-- A salary configuration listing the failing pattern before the
parsing one. -/
def c4cfg : SalaryConfig :=
  { patterns := [c4p1, c4p2], default_currency := some "USD",
    method := some "manual", aiEnabled := false }

/-- A concrete runtime environment: fixed processing date, a Date
builtin that accepts no absolute format, and failing AI adapters. -/
def envTest : JsEnv :=
  { today := "2026-01-09", dateParse := fun _ => none,
    relDate := fun _ _ => "2026-01-01", urlHostname := fun _ => none,
    expAi := fun _ => none, descAi := fun _ => none }

/-- An empty salary section. -/
def salaryCfg0 : SalaryConfig := ⟨[], some "VND", some "manual", false⟩

/-- An empty experience section. -/
def expCfg0 : ExpConfig := ⟨[], none, some "manual", false⟩

/-- A location section whose single country pattern fails to compile. -/
def locCfgBad : LocConfig :=
  ⟨[], [⟨⟨false, fun _ => none⟩, "USA"⟩], [], [], some "VNM", some "manual", false⟩

/-- A location section with no country patterns. -/
def locCfgGood : LocConfig := ⟨[], [], [], [], some "VNM", some "manual", false⟩

/-- An empty date section. -/
def dateCfg0 : DateConfig := ⟨[], [], some "manual", false⟩

/-- A manual description section. -/
def descCfg0 : DescConfig := ⟨some "manual", false⟩

/-- A platform configuration whose location section holds the
non-compiling country pattern. -/
def cfgBad : PlatformConfig := ⟨salaryCfg0, expCfg0, locCfgBad, dateCfg0, descCfg0, some 1⟩

/-- The same platform configuration with the bad pattern removed. -/
def cfgGood : PlatformConfig := ⟨salaryCfg0, expCfg0, locCfgGood, dateCfg0, descCfg0, some 1⟩

/-- A small global configuration with the usual reference tables. -/
def g0 : GlobalConfig := ⟨⟨[("VND", 1), ("USD", 2)], [("LinkedIn", 1)]⟩⟩

/-- A fully-populated raw record. -/
def raw0 : RawJob :=
  ⟨7, some "Engineer", some "Desc", some "10 Mil", some "Senior", some "Hanoi",
   some "soon", some "3", some "urlX", some "2026-01-08", some "Acme",
   some "HN", none⟩

/-- A normalized row already present in the clean store, with canonical
URL u. -/
def c2rowData : JobData :=
  ⟨1, "T", none, none, none, some 2, none, none, none, .date "2026-01-01", 1, "u", none⟩

/-- A clean store holding the one row with URL u. -/
def c2cs0 : CleanStore := ⟨[⟨0, c2rowData⟩], 1⟩

/-- An empty company store. -/
def c2os0 : CompanyStore := ⟨[], 0⟩

/-- A transformed candidate whose canonical URL u duplicates the stored
row; its raw record id is 7. -/
def c2job : CleanJob :=
  ⟨⟨some "Acme", none, none⟩, some "T", none, none, none, 2, none, none, none,
   .date "2026-01-02", some 1, some "u", none, 7⟩

/-- The raw store holding record 7, not yet processed. -/
def c2rs0 : List RawRow := [⟨7, false⟩]

/-- A job row payload: company 1, title Dev, platform 1, URL u1. -/
def c1d1 : JobData :=
  ⟨1, "Dev", none, none, none, some 2, none, none, none, .date "2026-01-01", 1, "u1", none⟩

/-- The same company, title and platform under the different URL u2 — a
repost. -/
def c1d2 : JobData :=
  ⟨1, "Dev", none, none, none, some 2, none, none, none, .date "2026-01-02", 1, "u2", none⟩

/-- A later candidate with the stored URL u1 but another title. -/
def c1d3 : JobData :=
  ⟨1, "Other", none, none, none, some 2, none, none, none, .date "2026-01-03", 1, "u1", none⟩

/-- An empty clean store. -/
def c1cs0 : CleanStore := ⟨[], 0⟩

/-- A location section with a city mapping that matches the remote
fixture text, a remote keyword, and no country patterns. -/
def c7cfg : LocConfig :=
  ⟨[("anywhere", "Nowhere")], [], ["remote"], [], some "VNM", some "manual", false⟩

/-- The normalized location of the remote fixture text. -/
def c7res : LocResult := ⟨some "Remote", "VNM", true, some false⟩

/-- A raw record whose only populated field is an unparseable listed
time. -/
def c8raw : RawJob :=
  ⟨7, none, none, none, none, none, some "soon", none, none, none, none, none, none⟩

/-- The candidate record the transform builds from the c8 fixture: every
degraded field null, the posted date substituted with the processing
date. -/
def c8job : CleanJob :=
  ⟨⟨none, none, none⟩, none, none, none, some 1, 2, none, some "VNM", none,
   .date "2026-01-09", some 1, none, none, 7⟩

/-- The compiled behaviour of an exact-type pattern capturing the value
0 on the fixture text. -/
def c10exec (s : String) : Option (List (Option String)) :=
  if s = "0 VND" then some [some s, some "0"] else none

/-- An exact-type pattern capturing 0. -/
def c10pattern : SalaryPattern :=
  { regex := ⟨true, c10exec⟩, type := "exact", multiplier := none,
    currency := some "VND", currency_group := 0, min_group := 0, max_group := 0,
    value_group := 1 }

/-- A salary section holding only the exact-0 pattern. -/
def c10salCfg : SalaryConfig := ⟨[c10pattern], some "VND", some "manual", false⟩

/-- A platform configuration with the exact-0 salary pattern. -/
def c10cfg : PlatformConfig := ⟨c10salCfg, expCfg0, locCfgGood, dateCfg0, descCfg0, some 1⟩

/-- A raw record whose salary text parses to an exact 0. -/
def c10raw : RawJob :=
  ⟨7, none, none, some "0 VND", none, none, none, none, none, none, none, none, none⟩

/-- The parsed salary of the c10 fixture: an exact 0 average. -/
def c10res : SalaryResult := ⟨some (.num 0), some (.num 0), some (.num 0), some "VND", "exact"⟩

/-- A concrete location outcome for instantiating the c10 build. -/
def c10loc : LocOutcome := .res ⟨none, "VNM", false, none⟩

/-! Helper lemmas. -/

/-- Evaluation of cleanNumber on the literal 15. -/
theorem cn15 : cleanNumber (some "15") = .num 15 := by
  have h1 : jsParseFloatShape "15" = some ⟨false, ['1', '5'], []⟩ := by decide
  have h2 : digitsToNat ['1', '5'] = 15 := by decide
  have h3 : digitsToNat ([] : List Char) = 0 := by decide
  simp [cleanNumber, jsParseFloat, h1, shapeVal, h2, h3]

/-- Evaluation of cleanNumber on the literal 25. -/
theorem cn25 : cleanNumber (some "25") = .num 25 := by
  have h1 : jsParseFloatShape "25" = some ⟨false, ['2', '5'], []⟩ := by decide
  have h2 : digitsToNat ['2', '5'] = 25 := by decide
  have h3 : digitsToNat ([] : List Char) = 0 := by decide
  simp [cleanNumber, jsParseFloat, h1, shapeVal, h2, h3]

/-- Evaluation of cleanNumber on the literal 0. -/
theorem cn0 : cleanNumber (some "0") = .num 0 := by
  have h1 : jsParseFloatShape "0" = some ⟨false, ['0'], []⟩ := by decide
  have h2 : digitsToNat ['0'] = 0 := by decide
  have h3 : digitsToNat ([] : List Char) = 0 := by decide
  simp [cleanNumber, jsParseFloat, h1, shapeVal, h2, h3]

/-- The salary pattern loop stops at the first valid, matching pattern
and returns its extraction result, whatever it is. -/
theorem salaryLoop_first (text : String) (cfg : SalaryConfig)
    (ps₁ ps₂ : List SalaryPattern) (p : SalaryPattern) (m : List (Option String))
    (h₁ : ∀ q ∈ ps₁, q.regex.valid = false ∨ q.regex.exec text = none)
    (h₂ : p.regex.valid = true) (h₃ : p.regex.exec text = some m) :
    salaryPatternLoop text cfg (ps₁ ++ p :: ps₂) = extractSalaryFromMatch m p cfg := by
  induction ps₁ with
  | nil => simp [salaryPatternLoop, h₂, h₃]
  | cons q qs ih =>
    have hrest : ∀ x ∈ qs, x.regex.valid = false ∨ x.regex.exec text = none :=
      fun x hx => h₁ x (by simp [hx])
    rcases h₁ q (by simp) with hv | he
    · simpa [salaryPatternLoop, hv] using ih hrest
    · by_cases hqv : q.regex.valid = true
      · simpa [salaryPatternLoop, hqv, he] using ih hrest
      · simpa [salaryPatternLoop, hqv] using ih hrest

/-- C3: for the input 15 Mil - 25 Mil VND matched by a range-type salary
pattern with multiplier 1,000,000 and currency VND, the parser returns
min 15,000,000, max 25,000,000, average 20,000,000 (the mean of the two
multiplied bounds), currency VND and kind range; and in general, for
every range-type match whose two captured bounds parse as numbers, each
bound is multiplied by the pattern's (nonzero) multiplier and the average
is (min + max) / 2. -/
theorem c3_theorem :
    salaryParseManual "15 Mil - 25 Mil VND" c3cfg =
      some ⟨some (.num 15000000), some (.num 25000000), some (.num 20000000),
            some "VND", "range"⟩ ∧
    ∀ (m : List (Option String)) (p : SalaryPattern) (cfg : SalaryConfig) (a b k : ℚ),
      p.type = "range" → p.multiplier = some k → k ≠ 0 →
      cleanNumber (mGet m p.min_group) = .num a →
      cleanNumber (mGet m p.max_group) = .num b →
      extractSalaryFromMatch m p cfg =
        some ⟨some (.num (a * k)), some (.num (b * k)), some (.num ((a * k + b * k) / 2)),
              jsOrS p.currency (jsOrS (mGet m p.currency_group) cfg.default_currency),
              "range"⟩ := by
  constructor
  · have hm : rangeExec "15 Mil - 25 Mil VND" =
        some [some "15 Mil - 25 Mil VND", some "15", some "25"] := by decide
    have hloop : salaryParseManual "15 Mil - 25 Mil VND" c3cfg =
        extractSalaryFromMatch [some "15 Mil - 25 Mil VND", some "15", some "25"]
          c3pattern c3cfg := by
      simp [salaryParseManual, c3cfg, salaryPatternLoop, c3pattern, hm]
    rw [hloop]
    have g1 : mGet [some "15 Mil - 25 Mil VND", some "15", some "25"] 1 = some "15" := by decide
    have g2 : mGet [some "15 Mil - 25 Mil VND", some "15", some "25"] 2 = some "25" := by decide
    have g3 : mGet [some "15 Mil - 25 Mil VND", some "15", some "25"] 3 = none := by decide
    simp [extractSalaryFromMatch, c3pattern, c3cfg, g1, g2, g3, cn15, cn25,
          jsOrQ, JsNum.mul, JsNum.avg, jsOrS, jsTruthyStr]
    norm_num
  · intro m p cfg a b k hty hmul hk ha hb
    simp [extractSalaryFromMatch, hty, hmul, ha, hb, jsOrQ, hk, JsNum.mul, JsNum.avg]

/-- Witness for C3's general part at the concrete bounds 15 and 25 with
multiplier 1,000,000. -/
theorem c3_witness :
    extractSalaryFromMatch [some "x", some "15", some "25"] c3pattern c3cfg =
      some ⟨some (.num (15 * 1000000)), some (.num (25 * 1000000)),
            some (.num ((15 * 1000000 + 25 * 1000000) / 2)),
            jsOrS c3pattern.currency
              (jsOrS (mGet [some "x", some "15", some "25"] c3pattern.currency_group)
                c3cfg.default_currency),
            "range"⟩ :=
  c3_theorem.2 _ _ _ 15 25 1000000 rfl rfl (by norm_num) cn15 cn25

/-- C4 corrected: the first valid matching pattern's extraction result is
returned even when a captured numeric group fails to parse — the NaN is
propagated into the result instead of the next pattern being tried. -/
theorem c4_theorem (text : String) (cfg : SalaryConfig)
    (ps₁ ps₂ : List SalaryPattern) (p : SalaryPattern) (m : List (Option String))
    (hpat : cfg.patterns = ps₁ ++ p :: ps₂)
    (h₁ : ∀ q ∈ ps₁, q.regex.valid = false ∨ q.regex.exec text = none)
    (h₂ : p.regex.valid = true) (h₃ : p.regex.exec text = some m) :
    salaryParseManual text cfg = extractSalaryFromMatch m p cfg ∧
    (p.type = "exact" → cleanNumber (mGet m p.value_group) = .nan →
      salaryParseManual text cfg =
        some ⟨some .nan, some .nan, some .nan,
              jsOrS p.currency (jsOrS (mGet m p.currency_group) cfg.default_currency),
              "exact"⟩) := by
  have hfirst : salaryParseManual text cfg = extractSalaryFromMatch m p cfg := by
    rw [salaryParseManual, hpat]
    exact salaryLoop_first text cfg ps₁ ps₂ p m h₁ h₂ h₃
  refine ⟨hfirst, fun hty hnan => ?_⟩
  rw [hfirst]
  simp [extractSalaryFromMatch, hty, hnan, JsNum.mul]

/-- Witness for C4's corrected claim at the fixture text whose first
pattern matches with a non-numeric group. -/
theorem c4_witness :
    salaryParseManual "salary abc" c4cfg =
      extractSalaryFromMatch [some "salary abc", some "abc"] c4p1 c4cfg ∧
    salaryParseManual "salary abc" c4cfg =
      some ⟨some .nan, some .nan, some .nan,
            jsOrS c4p1.currency
              (jsOrS (mGet [some "salary abc", some "abc"] c4p1.currency_group)
                c4cfg.default_currency),
            "exact"⟩ := by
  have h := c4_theorem "salary abc" c4cfg [] [c4p2] c4p1
    [some "salary abc", some "abc"] rfl (by simp) rfl (by decide)
  exact ⟨h.1, h.2 rfl (by decide)⟩

/-- C4 counterexample: on the fixture configuration the parser returns
the first pattern's result with NaN in every numeric field, although the
second pattern also matches and its group parses as a number —
contradicting the claim that a failed numeric parse makes the parser try
the next pattern. -/
theorem c4_counterexample :
    salaryParseManual "salary abc" c4cfg =
      some ⟨some .nan, some .nan, some .nan, some "USD", "exact"⟩ ∧
    c4p2.regex.exec "salary abc" = some [some "salary abc", some "5"] ∧
    cleanNumber (some "5") ≠ .nan := by
  refine ⟨by decide, by decide, by decide⟩

/-- C6: the experience mapping never returns null — when neither the
exact lookup nor the bidirectional substring match succeeds and the AI
fallback is disabled or fails, it returns the configured default level,
or Entry when none is configured; the companion id lookup maps every name
outside the six canonical levels to 2, and the six canonical levels to
ids 1..6. -/
theorem c6_theorem :
    (∀ (ai : String → Option String) (text? : Option String) (ec : ExpConfig),
      (∀ t, text? = some t → t ≠ "" → expMapManual t ec = none) →
      (ec.aiEnabled = false ∨ ∀ t, expMapWithAI ai t = none) →
      mapExperience ai text? ec = jsDefS ec.default "Entry") ∧
    (∀ name : String,
      name ∉ ["Internship", "Entry", "Mid", "Senior", "Lead", "Executive"] →
      getExperienceLevelId name = 2) ∧
    (getExperienceLevelId "Internship" = 1 ∧ getExperienceLevelId "Entry" = 2 ∧
     getExperienceLevelId "Mid" = 3 ∧ getExperienceLevelId "Senior" = 4 ∧
     getExperienceLevelId "Lead" = 5 ∧ getExperienceLevelId "Executive" = 6) := by
  refine ⟨?_, ?_, by decide⟩
  · intro ai text? ec hman hai
    cases text? with
    | none => simp [mapExperience, expDefault]
    | some t =>
      by_cases ht : t = ""
      · simp [mapExperience, ht, expDefault]
      · have hm := hman t rfl ht
        have hafter : expAfterManual ai t ec = expDefault ec := by
          rcases hai with h | h
          · simp [expAfterManual, h]
          · simp [expAfterManual, h t]
        simp [mapExperience, ht, hm, hafter, expDefault]
  · intro name hname
    have h' : name ≠ "Internship" ∧ name ≠ "Entry" ∧ name ≠ "Mid" ∧
        name ≠ "Senior" ∧ name ≠ "Lead" ∧ name ≠ "Executive" := by
      simpa using hname
    obtain ⟨h1, h2, h3, h4, h5, h6⟩ := h'
    simp [getExperienceLevelId, referenceMap, assocFind,
          Ne.symm h1, Ne.symm h2, Ne.symm h3, Ne.symm h4, Ne.symm h5, Ne.symm h6]

/-- Witness for C6 at a name outside the table with failing AI. -/
theorem c6_witness :
    mapExperience (fun _ => none) (some "Wizard") expCfg0 = jsDefS expCfg0.default "Entry" ∧
    getExperienceLevelId "Wizard" = 2 := by
  refine ⟨c6_theorem.1 _ _ _ ?_ (Or.inl rfl), c6_theorem.2.1 "Wizard" (by decide)⟩
  intro t ht hne
  cases ht
  decide

/-- C7: a matching remote keyword forces isRemote and the literal Remote
city regardless of the city mappings; with no matching remote keyword the
city is the city-mapping replacement. -/
theorem c7_theorem (text : String) (lc : LocConfig) (r : LocResult)
    (h : locNormalizeManual text lc = .ok r) :
    ((∃ kw ∈ lc.remote_keywords, jsIncludes (jsToLower text) (jsToLower kw) = true) →
      r.city = some "Remote" ∧ r.isRemote = true) ∧
    ((∀ kw ∈ lc.remote_keywords, jsIncludes (jsToLower text) (jsToLower kw) = false) →
      r.city = some (cityMap text lc.city_mappings) ∧ r.isRemote = false) := by
  rcases hc : locFindCountry text (jsDefS lc.default_country "VNM") lc.country_patterns with e | cc
  · simp only [locNormalizeManual] at h
    rw [hc] at h
    simp at h
  · simp only [locNormalizeManual] at h
    rw [hc] at h
    injection h with h
    subst h
    constructor
    · rintro ⟨kw, hkw, hinc⟩
      have hany :
          (lc.remote_keywords.any fun kw => jsIncludes (jsToLower text) (jsToLower kw)) = true :=
        List.any_eq_true.mpr ⟨kw, hkw, hinc⟩
      simp [hany]
    · intro hall
      have hany :
          (lc.remote_keywords.any fun kw => jsIncludes (jsToLower text) (jsToLower kw)) = false := by
        rw [List.any_eq_false]
        intro k hk
        simp [hall k hk]
      simp [hany]

/-- Witness for C7 at the remote fixture text, whose city mapping also
matches. -/
theorem c7_witness : c7res.city = some "Remote" ∧ c7res.isRemote = true := by
  have h := c7_theorem "Remote - anywhere" c7cfg c7res (by rfl)
  exact h.1 ⟨"remote", by simp [c7cfg], by decide⟩

/-- The relative-pattern loop finds nothing when every pattern is invalid
or non-matching. -/
theorem dateRelLoop_none (env : JsEnv) (text : String) (ps : List RelPattern)
    (h : ∀ p ∈ ps, p.regex.valid = false ∨ p.regex.exec text = none) :
    dateRelLoop env text ps = none := by
  induction ps with
  | nil => rfl
  | cons p rest ih =>
    have hrest : ∀ x ∈ rest, x.regex.valid = false ∨ x.regex.exec text = none :=
      fun x hx => h x (List.mem_cons_of_mem _ hx)
    rcases h p (by simp) with hv | he
    · simpa [dateRelLoop, hv] using ih hrest
    · by_cases hpv : p.regex.valid = true
      · simpa [dateRelLoop, hpv, he] using ih hrest
      · simpa [dateRelLoop, hpv] using ih hrest

/-- The absolute-format loop finds nothing when the generic date
construction rejects the text. -/
theorem dateFmtLoop_none (env : JsEnv) (text : String) (fs : List String)
    (h : env.dateParse text = none) : dateFmtLoop env text fs = none := by
  induction fs with
  | nil => rfl
  | cons f rest ih => simpa [dateFmtLoop, h] using ih

/-- C8: a date text matching no relative pattern and no absolute format,
with the AI fallback disabled, parses to null, and the transform then
substitutes the current processing date as the posted date. -/
theorem c8_theorem (env : JsEnv) (g : GlobalConfig) (pn : String) (cfg : PlatformConfig)
    (raw : RawJob) (t : String)
    (hlt : raw.listed_time = some t)
    (hrel : ∀ p ∈ cfg.date.relative, p.regex.valid = false ∨ p.regex.exec t = none)
    (habs : env.dateParse t = none)
    (hai : cfg.date.aiEnabled = false) :
    dateParseDate env raw.listed_time cfg.date = .null ∧
    ∀ j, transformJob env g pn cfg raw = .ok j → j.postedDate = .date env.today := by
  have hnull : dateParseDate env raw.listed_time cfg.date = .null := by
    rw [hlt]
    by_cases ht : t = ""
    · simp [dateParseDate, ht]
    · have hman : dateParseManual env t cfg.date = none := by
        simp [dateParseManual, dateRelLoop_none env t _ hrel, dateFmtLoop_none env t _ habs]
      simp [dateParseDate, ht, hman, hai]
  refine ⟨hnull, fun j hj => ?_⟩
  unfold transformJob at hj
  rcases hl : normalizeLocation raw.location cfg.location with e | lo
  · rw [hl] at hj
    simp at hj
  · rw [hl] at hj
    simp at hj
    subst hj
    simp [buildCleanJob, hnull]

/-- Witness for C8 at the fixture record with the unparseable listed
time. -/
theorem c8_witness :
    dateParseDate envTest c8raw.listed_time cfgGood.date = .null ∧
    c8job.postedDate = .date envTest.today := by
  have h := c8_theorem envTest g0 "LinkedIn" cfgGood c8raw "soon" rfl
    (by simp [cfgGood, dateCfg0]) rfl rfl
  exact ⟨h.1, h.2 c8job (by rfl)⟩

/-- C10: a falsy parsed salary average — absent, NaN, or 0 — is coerced
to null in the candidate record's monthly salary field, both in the
record builder and through the whole transform. -/
theorem c10_theorem (env : JsEnv) (g : GlobalConfig) (pn : String) (cfg : PlatformConfig)
    (raw : RawJob) (r : SalaryResult)
    (hp : parseSalaryJs raw.salary cfg.salary = .res r)
    (hav : r.average = none ∨ r.average = some .nan ∨ r.average = some (.num 0)) :
    (∀ lo, (buildCleanJob env g pn cfg raw lo).salaryPerMonth = none) ∧
    (∀ j, transformJob env g pn cfg raw = .ok j → j.salaryPerMonth = none) := by
  have hnull : salaryOutAverageOrNull (parseSalaryJs raw.salary cfg.salary) = none := by
    rw [hp]
    rcases hav with h | h | h <;> simp [salaryOutAverageOrNull, h]
  constructor
  · intro lo
    simp [buildCleanJob, hnull]
  · intro j hj
    unfold transformJob at hj
    rcases hl : normalizeLocation raw.location cfg.location with e | lo
    · rw [hl] at hj
      simp at hj
    · rw [hl] at hj
      simp at hj
      subst hj
      simp [buildCleanJob, hnull]

/-- Witness for C10 at the fixture whose salary text parses to an exact
0 average. -/
theorem c10_witness :
    (buildCleanJob envTest g0 "LinkedIn" c10cfg c10raw c10loc).salaryPerMonth = none := by
  have hm : c10exec "0 VND" = some [some "0 VND", some "0"] := by decide
  have hloop : salaryParseManual "0 VND" c10salCfg =
      extractSalaryFromMatch [some "0 VND", some "0"] c10pattern c10salCfg := by
    simp [salaryParseManual, c10salCfg, salaryPatternLoop, c10pattern, hm]
  have g1 : mGet [some "0 VND", some "0"] 1 = some "0" := by decide
  have hex : extractSalaryFromMatch [some "0 VND", some "0"] c10pattern c10salCfg =
      some c10res := by
    simp [extractSalaryFromMatch, c10pattern, c10salCfg, g1, cn0, jsOrQ, JsNum.mul,
          c10res, jsOrS, jsTruthyStr]
  have hstep : parseSalaryJs c10raw.salary c10cfg.salary =
      match salaryParseManual "0 VND" c10salCfg with
      | some r => SalaryOutcome.res r
      | none => SalaryOutcome.null := rfl
  have hp : parseSalaryJs c10raw.salary c10cfg.salary = .res c10res := by
    rw [hstep, hloop.trans hex]
  exact (c10_theorem envTest g0 "LinkedIn" c10cfg c10raw c10res hp
    (Or.inr (Or.inr rfl))).1 c10loc

/-- The country loop never throws when every configured pattern
compiles. -/
theorem locFindCountry_ok (text dflt : String) (ps : List CountryPattern)
    (h : ∀ p ∈ ps, p.regex.valid = true) :
    ∃ c, locFindCountry text dflt ps = .ok c := by
  induction ps with
  | nil => exact ⟨dflt, rfl⟩
  | cons p rest ih =>
    have hp := h p (by simp)
    have hrest : ∀ x ∈ rest, x.regex.valid = true :=
      fun x hx => h x (List.mem_cons_of_mem _ hx)
    rcases he : p.regex.exec text with _ | m
    · simpa [locFindCountry, hp, he] using ih hrest
    · exact ⟨p.code, by simp [locFindCountry, hp, he]⟩

/-- The location normalizer returns a value (never throws) when every
country pattern compiles. -/
theorem normalizeLocation_ok (text? : Option String) (lc : LocConfig)
    (h : ∀ p ∈ lc.country_patterns, p.regex.valid = true) :
    ∃ lo, normalizeLocation text? lc = .ok lo := by
  cases text? with
  | none => exact ⟨_, rfl⟩
  | some t =>
    by_cases ht : t = ""
    · exact ⟨.res ⟨none, jsDefS lc.default_country "VNM", false, none⟩,
        by simp [normalizeLocation, ht]⟩
    · obtain ⟨c, hc⟩ := locFindCountry_ok t (jsDefS lc.default_country "VNM") lc.country_patterns h
      have hr : locNormalizeManual t lc =
          .ok ⟨some (if lc.remote_keywords.any (fun kw => jsIncludes (jsToLower t) (jsToLower kw))
                then "Remote" else cityMap t lc.city_mappings), c,
              lc.remote_keywords.any (fun kw => jsIncludes (jsToLower t) (jsToLower kw)),
              some (lc.hybrid_keywords.any (fun kw => jsIncludes (jsToLower t) (jsToLower kw)))⟩ := by
        simp only [locNormalizeManual]
        rw [hc]
      by_cases hm : jsDefS lc.method "manual" = "manual" ∨ jsDefS lc.method "manual" = "ai"
      · refine ⟨.res
          ⟨some (if lc.remote_keywords.any (fun kw => jsIncludes (jsToLower t) (jsToLower kw))
              then "Remote" else cityMap t lc.city_mappings), c,
            lc.remote_keywords.any (fun kw => jsIncludes (jsToLower t) (jsToLower kw)),
            some (lc.hybrid_keywords.any (fun kw => jsIncludes (jsToLower t) (jsToLower kw)))⟩, ?_⟩
        simp only [normalizeLocation]
        rw [if_neg ht, if_pos hm, hr]
      · by_cases hai : lc.aiEnabled = true
        · exact ⟨.promise, by simp [normalizeLocation, ht, hm, hai]⟩
        · exact ⟨.res ⟨some t, jsDefS lc.default_country "VNM", false, none⟩,
            by simp [normalizeLocation, ht, hm, hai]⟩

/-- C5 corrected: when every country pattern in the location section
compiles, the whole transform succeeds, and each normalizer failure
degrades only its own field — null salary average to null monthly salary,
null parsed date to the processing date, null description to null — with
the identifying fields still populated; the one exception (shown by the
counterexample) is an invalid country-pattern regex, which aborts the
record. -/
theorem c5_theorem (env : JsEnv) (g : GlobalConfig) (pn : String) (cfg : PlatformConfig)
    (raw : RawJob) (h : ∀ p ∈ cfg.location.country_patterns, p.regex.valid = true) :
    (transformJob env g pn cfg raw).isOk = true ∧
    ∀ j, transformJob env g pn cfg raw = .ok j →
      (parseSalaryJs raw.salary cfg.salary = .null → j.salaryPerMonth = none) ∧
      (dateParseDate env raw.listed_time cfg.date = .null → j.postedDate = .date env.today) ∧
      (processDescription env cfg.description raw.description = none → j.description = none) ∧
      j.title = raw.job_title ∧ j.postUrl = raw.url ∧ j.rawJobId = raw.job_id := by
  obtain ⟨lo, hlo⟩ := normalizeLocation_ok raw.location cfg.location h
  constructor
  · unfold transformJob
    rw [hlo]
    rfl
  · intro j hj
    unfold transformJob at hj
    rw [hlo] at hj
    injection hj with hj
    subst hj
    refine ⟨fun hs => by simp [buildCleanJob, hs, salaryOutAverageOrNull],
            fun hd => by simp [buildCleanJob, hd],
            fun hde => by simp [buildCleanJob, hde], rfl, rfl, rfl⟩

/-- Witness for C5 at the fixture record under the configuration with no
country patterns. -/
theorem c5_witness : (transformJob envTest g0 "LinkedIn" cfgGood raw0).isOk = true :=
  (c5_theorem envTest g0 "LinkedIn" cfgGood raw0 (by simp [cfgGood, locCfgGood])).1

/-- C5 counterexample: with a location section whose single country
pattern fails to compile, the location normalizer throws and the whole
record is aborted — the transform returns an error instead of a candidate
record with only the location field degraded. -/
theorem c5_counterexample : transformJob envTest g0 "LinkedIn" cfgBad raw0 = .error () := by
  rfl

/-- The guard invariant is preserved by every event. -/
theorem orchStep_inv (s : AppState) (e : OrchEvent) (h : orchInv s) :
    orchInv (orchStep s e) := by
  cases e <;> by_cases hb : s.isProcessing = true <;>
    simp [orchStep, orchInv, hb] at h ⊢ <;> omega

/-- C9: a cycle request while a cycle is in progress is a dropped no-op —
the state (and so the stores and the set of started cycles) is unchanged;
a request while idle sets the flag and starts one cycle; completion
clears the flag; and along every event sequence at most one cycle is in
flight. -/
theorem c9_theorem :
    (∀ s : AppState, s.isProcessing = true → orchStep s .request = s) ∧
    (∀ s : AppState, s.isProcessing = false →
      orchStep s .request = ⟨true, s.started + 1, s.finished⟩) ∧
    (∀ s : AppState, s.isProcessing = true →
      orchStep s .finish = ⟨false, s.started, s.finished + 1⟩) ∧
    (∀ es : List OrchEvent, orchInv (orchRun orchInit es)) := by
  refine ⟨fun s h => by simp [orchStep, h], fun s h => by simp [orchStep, h],
          fun s h => by simp [orchStep, h], ?_⟩
  have hgen : ∀ (es : List OrchEvent) (s : AppState), orchInv s → orchInv (orchRun s es) := by
    intro es
    induction es with
    | nil => exact fun s h => h
    | cons e rest ih => exact fun s h => ih _ (orchStep_inv s e h)
  exact fun es => hgen es orchInit (by simp [orchInv, orchInit])

/-- Witness for C9: a request in a busy state is dropped, and the
invariant holds after a concrete event sequence. -/
theorem c9_witness :
    orchStep ⟨true, 1, 0⟩ .request = ⟨true, 1, 0⟩ ∧
    orchInv (orchRun orchInit [.request, .request, .finish]) :=
  ⟨c9_theorem.1 ⟨true, 1, 0⟩ rfl, c9_theorem.2.2.2 [.request, .request, .finish]⟩

/-- A candidate that maps to row values carries the candidate's URL. -/
theorem toJobData_postUrl (cid : Nat) (j : CleanJob) (jd : JobData)
    (h : toJobData cid j = some jd) : j.postUrl = some jd.postUrl := by
  rcases ht : j.title with _ | t <;> rcases hu : j.postUrl with _ | u <;>
    rcases hp : j.platformId with _ | p <;> simp [toJobData, ht, hu, hp] at h
  rw [← h]

/-- insertJobPost on a URL already present: nothing inserted, no id
returned. -/
theorem insertJobPost_dup (cs : CleanStore) (jd : JobData)
    (h : ∃ r ∈ cs.rows, r.data.postUrl = jd.postUrl) :
    insertJobPost cs jd = (cs, none) := by
  obtain ⟨r, hr, he⟩ := h
  have hany : cs.rows.any (fun r => r.data.postUrl == jd.postUrl) = true :=
    List.any_eq_true.mpr ⟨r, hr, by simp [he]⟩
  simp [insertJobPost, hany]

/-- Every id accumulated by the commit loop is either carried over or the
raw id of some job in the batch. -/
theorem commitLoop_ids_from (jobs : List CleanJob) :
    ∀ (cs : CleanStore) (os : CompanyStore) (acc : List Nat) (rid : Nat),
      rid ∈ (commitLoop cs os acc jobs).2.2 →
      rid ∈ acc ∨ ∃ j ∈ jobs, rid = j.rawJobId := by
  induction jobs with
  | nil =>
    intro cs os acc rid h
    exact Or.inl h
  | cons job rest ih =>
    intro cs os acc rid h
    have hstep : (commitStep cs os acc job).2.2 = acc ∨
        (commitStep cs os acc job).2.2 = acc ++ [job.rawJobId] := by
      unfold commitStep
      rcases hup : upsertCompany os job.company with _ | ⟨os', cid⟩
      · exact Or.inl (by simp)
      · rcases hjd : toJobData cid job with _ | jd
        · exact Or.inl (by simp [hjd])
        · rcases hins : insertJobPost cs jd with ⟨cs', i?⟩
          rcases i? with _ | i
          · exact Or.inl (by simp [hjd, hins])
          · exact Or.inr (by simp [hjd, hins])
    have h' : rid ∈ (commitStep cs os acc job).2.2 ∨ ∃ j ∈ rest, rid = j.rawJobId := by
      have := ih (commitStep cs os acc job).1 (commitStep cs os acc job).2.1
        (commitStep cs os acc job).2.2 rid (by
          rw [commitLoop] at h
          exact h)
      tauto
    rcases h' with hin | ⟨j, hj, hje⟩
    · rcases hstep with he | he
      · rw [he] at hin
        exact Or.inl hin
      · rw [he] at hin
        rcases List.mem_append.mp hin with hl | hr
        · exact Or.inl hl
        · exact Or.inr ⟨job, by simp, by simpa using hr⟩
    · exact Or.inr ⟨j, List.mem_cons_of_mem _ hj, hje⟩

/-- When every candidate's URL is already present in the clean store, the
commit loop changes nothing and accumulates no ids. -/
theorem commitLoop_allDup (jobs : List CleanJob) :
    ∀ (cs : CleanStore) (os : CompanyStore) (acc : List Nat),
      (∀ j ∈ jobs, ∀ u, j.postUrl = some u → ∃ r ∈ cs.rows, r.data.postUrl = u) →
      ∃ os', commitLoop cs os acc jobs = (cs, os', acc) := by
  induction jobs with
  | nil => exact fun cs os acc _ => ⟨os, rfl⟩
  | cons job rest ih =>
    intro cs os acc h
    have hstep : ∃ os₁, commitStep cs os acc job = (cs, os₁, acc) := by
      unfold commitStep
      rcases hup : upsertCompany os job.company with _ | ⟨os', cid⟩
      · exact ⟨os, by simp⟩
      · rcases hjd : toJobData cid job with _ | jd
        · exact ⟨os', by simp [hjd]⟩
        · have hurl := toJobData_postUrl cid job jd hjd
          have hdup := insertJobPost_dup cs jd (h job (by simp) jd.postUrl hurl)
          exact ⟨os', by simp [hjd, hdup]⟩
    obtain ⟨os₁, hs⟩ := hstep
    have hrest : ∀ j ∈ rest, ∀ u, j.postUrl = some u → ∃ r ∈ cs.rows, r.data.postUrl = u :=
      fun j hj => h j (List.mem_cons_of_mem _ hj)
    obtain ⟨os', hrec⟩ := ih cs os₁ acc hrest
    refine ⟨os', ?_⟩
    rw [commitLoop, hs]
    exact hrec

/-- C2 corrected: the orchestrator marks as processed exactly the
accumulated processedJobIds — which come only from candidates whose
insert returned a new id; in particular, when every candidate in the
batch duplicates a URL already in the clean store, no id is accumulated,
the batched update is skipped, and the whole batch stays unprocessed
(to be retried in a later cycle). -/
theorem c2_theorem :
    (∀ (jobs : List CleanJob) (cs : CleanStore) (os : CompanyStore) (rid : Nat),
      rid ∈ (commitLoop cs os [] jobs).2.2 → ∃ j ∈ jobs, rid = j.rawJobId) ∧
    (∀ (rs : List RawRow) (cs : CleanStore) (os : CompanyStore) (jobs : List CleanJob),
      (∀ j ∈ jobs, ∀ u, j.postUrl = some u → ∃ r ∈ cs.rows, r.data.postUrl = u) →
      (runPlatformCommit rs cs os jobs).markedIds = [] ∧
      (runPlatformCommit rs cs os jobs).raw = rs) := by
  constructor
  · intro jobs cs os rid h
    rcases commitLoop_ids_from jobs cs os [] rid h with hin | hgood
    · simp at hin
    · exact hgood
  · intro rs cs os jobs h
    obtain ⟨os', he⟩ := commitLoop_allDup jobs cs os [] h
    constructor <;> simp [runPlatformCommit, he]

/-- Witness for C2's corrected claim at the fixture batch whose one
candidate duplicates the stored URL. -/
theorem c2_witness :
    (runPlatformCommit c2rs0 c2cs0 c2os0 [c2job]).markedIds = [] ∧
    (runPlatformCommit c2rs0 c2cs0 c2os0 [c2job]).raw = c2rs0 := by
  refine c2_theorem.2 c2rs0 c2cs0 c2os0 [c2job] ?_
  intro j hj u hu
  have hj' : j = c2job := by simpa using hj
  subst hj'
  have hu' : u = "u" := by simpa [c2job] using hu.symm
  subst hu'
  exact ⟨⟨0, c2rowData⟩, by simp [c2cs0], by simp [c2rowData]⟩

/-- C2 counterexample: raw record 7's candidate is attempted but skipped
as a duplicate, and after the commit step record 7 is still unprocessed —
contradicting the claim that every attempted raw record id is marked
processed. -/
theorem c2_counterexample :
    (runPlatformCommit c2rs0 c2cs0 c2os0 [c2job]).raw = [⟨7, false⟩] ∧
    c2job.rawJobId = 7 ∧ c2rs0 = [⟨7, false⟩] := by
  refine ⟨by decide, by decide, by decide⟩

/-- C1 corrected, part of the amended claim: createJobPost implements the
two-level duplicate check — an existing URL is a no-op skip returning the
existing id; otherwise an existing (company, case-insensitive trimmed
title, platform) match is a no-op skip returning the existing id;
otherwise the row is inserted; and a repost of a just-created row under a
fresh URL with the same (company, title, platform) leaves the store
unchanged and is reported as a skip. -/
theorem c1_theorem :
    (∀ (cs : CleanStore) (jd : JobData),
      (∀ i, findJobByUrl cs.rows jd.postUrl = some i → createJobPost cs jd = (cs, false, i)) ∧
      (findJobByUrl cs.rows jd.postUrl = none →
        (∀ i, findJobByCompanyTitlePlatform cs.rows jd.companyId jd.title jd.platformId = some i →
          createJobPost cs jd = (cs, false, i)) ∧
        (findJobByCompanyTitlePlatform cs.rows jd.companyId jd.title jd.platformId = none →
          createJobPost cs jd =
            (⟨cs.rows ++ [⟨cs.nextId, jd⟩], cs.nextId + 1⟩, true, cs.nextId)))) ∧
    (∀ (cs cs₁ : CleanStore) (jd₁ jd₂ : JobData) (i₁ : Nat),
      createJobPost cs jd₁ = (cs₁, true, i₁) →
      jd₂.companyId = jd₁.companyId → lowerTrim jd₂.title = lowerTrim jd₁.title →
      jd₂.platformId = jd₁.platformId →
      findJobByUrl cs₁.rows jd₂.postUrl = none →
      (createJobPost cs₁ jd₂).1 = cs₁ ∧ (createJobPost cs₁ jd₂).2.1 = false) := by
  constructor
  · intro cs jd
    refine ⟨fun i hi => by simp [createJobPost, hi], fun hnone => ⟨?_, ?_⟩⟩
    · intro i hi
      simp [createJobPost, hnone, hi]
    · intro hn2
      simp [createJobPost, hnone, hn2]
  · intro cs cs₁ jd₁ jd₂ i₁ hcr h1 h2 h3 hurl
    rcases hu : findJobByUrl cs.rows jd₁.postUrl with _ | i
    · rcases hc : findJobByCompanyTitlePlatform cs.rows jd₁.companyId jd₁.title jd₁.platformId
        with _ | i
      · have hins : createJobPost cs jd₁ =
            (⟨cs.rows ++ [⟨cs.nextId, jd₁⟩], cs.nextId + 1⟩, true, cs.nextId) := by
          simp [createJobPost, hu, hc]
        rw [hins] at hcr
        have hcs : cs₁ = ⟨cs.rows ++ [⟨cs.nextId, jd₁⟩], cs.nextId + 1⟩ :=
          (congrArg Prod.fst hcr).symm
        subst hcs
        have hctp : (findJobByCompanyTitlePlatform
            (cs.rows ++ [⟨cs.nextId, jd₁⟩]) jd₂.companyId jd₂.title jd₂.platformId).isSome = true := by
          unfold findJobByCompanyTitlePlatform
          rw [List.find?_append]
          rcases hfa : cs.rows.find? (fun r =>
              r.data.companyId == jd₂.companyId && lowerTrim r.data.title == lowerTrim jd₂.title &&
              r.data.platformId == jd₂.platformId) with _ | r
          · simp [hfa, List.find?, h1.symm, h2.symm, h3.symm]
          · simp [hfa]
        obtain ⟨i₂, hi₂⟩ := Option.isSome_iff_exists.mp hctp
        constructor <;> simp [createJobPost, hurl, hi₂]
      · simp [createJobPost, hu, hc] at hcr
    · simp [createJobPost, hu] at hcr

/-- Witness for C1's repost clause at the concrete store where Dev/u1 was
just created and the repost arrives as Dev/u2. -/
theorem c1_witness :
    (createJobPost ⟨[⟨0, c1d1⟩], 1⟩ c1d2).1 = ⟨[⟨0, c1d1⟩], 1⟩ ∧
    (createJobPost ⟨[⟨0, c1d1⟩], 1⟩ c1d2).2.1 = false :=
  c1_theorem.2 c1cs0 ⟨[⟨0, c1d1⟩], 1⟩ c1d1 c1d2 0 (by decide) rfl rfl rfl (by decide)

/-- C1 counterexample: through DatabaseService.insertJobPost (the path
the orchestrator uses), two records with different URLs and identical
(company, case-insensitive trimmed title, platform) are BOTH inserted —
two normalized posts, not one — and a third insert with an existing URL
returns no id at all rather than the existing record's id. -/
theorem c1_counterexample :
    (insertJobPost (insertJobPost c1cs0 c1d1).1 c1d2).1.rows.length = 2 ∧
    c1d1.postUrl ≠ c1d2.postUrl ∧ c1d1.companyId = c1d2.companyId ∧
    lowerTrim c1d1.title = lowerTrim c1d2.title ∧ c1d1.platformId = c1d2.platformId ∧
    (insertJobPost (insertJobPost c1cs0 c1d1).1 c1d3).2 = none ∧
    (findJobByUrl (insertJobPost c1cs0 c1d1).1.rows c1d3.postUrl).isSome = true := by
  refine ⟨by decide, by decide, by decide, by decide, by decide, by decide, by decide⟩

end Crawler
